import Mathlib

/-!
Verification of lnsync (src/lnsync.go), a one-way directory-to-symlink-farm
synchronizer. We shallowly embed the destination directory as an association
list from entry names to entries, the Go library calls `os.Symlink`,
`os.Remove`, `path.Base`, `ioutil.ReadDir`, `os.Lstat`,
`filepath.EvalSymlinks` as explicit functions over that model, and the three
relevant routines of the source — `UpdateDirs` (the link synchronizer),
`cleanDirs` (the startup reconciler) and the event-router loop of `main` —
as Lean functions faithful to the Go control flow.
-/

namespace LnSync

/-- Go `path.Base`: "" ↦ ".", trailing slashes stripped, the part after the
last remaining slash is returned, "/" if only slashes. -/
def goPathBase (p : String) : String :=
  if p = "" then (".")
  else
    let r := p.toList.reverse.dropWhile (fun c => c = '/')
    if r = [] then ("/")
    else String.mk ((r.takeWhile (fun c => c ≠ '/')).reverse)

/-- An entry of the destination directory: a symbolic link with a target
path, or any non-symlink entry (regular file, subdirectory, ...). -/
inductive FSEntry where
  | symlink (target : String) : FSEntry
  | file : FSEntry
deriving DecidableEq

/-- The destination directory: a finite name → entry association. -/
abbrev Dir := List (String × FSEntry)

/-- The entry stored under name `n`, if any (first binding wins). -/
def lookupName (d : Dir) (n : String) : Option FSEntry :=
  match d with
  | [] => none
  | (m, e) :: rest => if m = n then some e else lookupName rest n

/-- How many entries of `d` carry the name `n`. -/
def countName (d : Dir) (n : String) : Nat :=
  (d.filter (fun p => p.1 = n)).length

/-- Drop every entry named `n` (at most one exists in a real directory). -/
def removeName (d : Dir) (n : String) : Dir :=
  d.filter (fun p => p.1 ≠ n)

/-- The Go error string of a symlink-creation collision (EEXIST). -/
def errEEXIST : String := "file exists"

/-- The Go error string of removing a missing entry (ENOENT). -/
def errENOENT : String := "no such file or directory"

/-- Model of `os.Symlink target linkname` inside directory `d`: fails with EEXIST if
any entry named `linkname` exists, otherwise adds the symlink. -/
def osSymlink (target linkname : String) (d : Dir) : Except String Dir :=
  match lookupName d linkname with
  | some _ => Except.error errEEXIST
  | none => Except.ok ((linkname, FSEntry.symlink target) :: d)

/-- Model of `os.Remove name` inside directory `d`: fails with ENOENT if no entry
named `name` exists, otherwise removes that entry, whatever its kind. -/
def osRemove (name : String) (d : Dir) : Except String Dir :=
  match lookupName d name with
  | some _ => Except.ok (removeName d name)
  | none => Except.error errENOENT

/-- One fsnotify notification as `UpdateDirs` consumes it: the reported
path and the create/delete flags of the event mask. -/
structure FileEvent where
  name : String
  isCreate : Bool
  isDelete : Bool
deriving DecidableEq

/-- The outcome of one `UpdateDirs` call: the destination directory after
the call, the log lines written, and the returned error (`none` = nil). -/
structure UpdateResult where
  dir : Dir
  log : List String
  err : Option String
deriving DecidableEq

/-- Embedding of `(*Directory).UpdateDirs` from src/lnsync.go lines 173-192: on a create
event, `os.Symlink(Event.Name, dist+"/"+path.Base(Event.Name))`, returning
the error on failure; then on a delete event,
`os.Remove(dist+"/"+path.Base(Event.Name))`, returning the error on
failure; otherwise nil. Both failures are logged; both intermediate
successes are logged. -/
def UpdateDirs (dist : String) (updated : FileEvent) (d : Dir) : UpdateResult :=
  let b := goPathBase updated.name
  if updated.isCreate then
    match osSymlink updated.name b d with
    | Except.error e => ⟨d, [e], some e⟩
    | Except.ok d1 =>
      let log1 := ["Updated link: " ++ updated.name]
      if updated.isDelete then
        match osRemove b d1 with
        | Except.error e => ⟨d1, log1 ++ [e], some e⟩
        | Except.ok d2 =>
            ⟨d2, log1 ++ ["Delete link: " ++ dist ++ "/" ++ b], none⟩
      else ⟨d1, log1, none⟩
  else if updated.isDelete then
    match osRemove b d with
    | Except.error e => ⟨d, [e], some e⟩
    | Except.ok d1 => ⟨d1, ["Delete link: " ++ dist ++ "/" ++ b], none⟩
  else ⟨d, [], none⟩

/-- One source directory as `cleanDirs` sees it: its path and the outcome
of `ioutil.ReadDir` on it (error, or the list of child names). -/
structure SourceDir where
  path : String
  listing : Except String (List String)

/-- One destination-directory entry as the `cleanDirs` loop examines it:
its name, the outcome of `os.Lstat(target+"/"+name)` (error, or whether
the mode has `os.ModeSymlink`), whether `filepath.EvalSymlinks` on it
succeeds (consulted only for symlinks), and the outcome of `os.Remove`
(consulted only for broken symlinks; `none` = success). -/
structure DestEntry where
  name : String
  lstat : Except String Bool
  resolves : Bool
  removeErr : Option String

/-- The name→source-path map built by the first loop of `cleanDirs`
(`filenames[f.Name()] = source.Path` — a Go map assignment overwrites). -/
def mapAssign (m : List (String × String)) (k v : String) :
    List (String × String) :=
  (k, v) :: m.filter (fun p => p.1 ≠ k)

/-- The first loop of `cleanDirs` lines 140-148: lists every source
directory, aborting with the error of the first failing `ReadDir`, and
folds the child names into the `filenames` map. -/
def buildFilenames : List SourceDir → List (String × String) →
    Except String (List (String × String))
  | [], acc => Except.ok acc
  | s :: rest, acc =>
    match s.listing with
    | Except.error e => Except.error e
    | Except.ok names =>
        buildFilenames rest (names.foldl (fun m n => mapAssign m n s.path) acc)

/-- Whether a destination entry is a symlink whose target does not
resolve — the condition under which `cleanDirs` removes it. -/
def isBrokenLink (e : DestEntry) : Bool :=
  match e.lstat with
  | Except.error _ => false
  | Except.ok isLink => isLink && !e.resolves

/-- The second loop of `cleanDirs` lines 153-168 over the destination
listing: Lstat each entry (abort on error), skip non-symlinks, skip
symlinks that resolve, remove broken symlinks (abort if the removal
fails). Returns the names removed by this call and the error returned
(`none` = nil); on an abort the removals already performed stand. -/
def cleanLoop : List DestEntry → List String × Option String
  | [] => ([], none)
  | e :: rest =>
    match e.lstat with
    | Except.error msg => ([], some msg)
    | Except.ok isLink =>
      if isLink then
        if e.resolves then cleanLoop rest
        else
          match e.removeErr with
          | some msg => ([], some msg)
          | none =>
              let r := cleanLoop rest
              (e.name :: r.1, r.2)
      else cleanLoop rest

/-- Embedding of `cleanDirs` from src/lnsync.go lines 138-171: build the `filenames`
map from the source listings (abort on a listing error), list the
destination (abort on error), then prune broken symlinks. The result is
the list of destination names removed and the returned error. -/
def cleanDirs (sources : List SourceDir)
    (destListing : Except String (List DestEntry)) :
    List String × Option String :=
  match buildFilenames sources [] with
  | Except.error e => ([], some e)
  | Except.ok _ =>
    match destListing with
    | Except.error e => ([], some e)
    | Except.ok entries => cleanLoop entries

/-- What `main` lines 109-112 do with the `cleanDirs` result:
`log.Fatalln` (process exit, before the event loop at line 115 starts)
on error, otherwise fall through to live event processing. -/
inductive StartupOutcome where
  | fatalExit (msg : String) : StartupOutcome
  | enterEventLoop : StartupOutcome
deriving DecidableEq

/-- The startup decision of `main` on the reconciliation result. -/
def startupAfterClean (r : List String × Option String) : StartupOutcome :=
  match r.2 with
  | some e => StartupOutcome.fatalExit ("First clean dirs was corrapted: " ++ e)
  | none => StartupOutcome.enterEventLoop

/-- Whether some entry of the destination listing makes the `cleanDirs`
loop abort: its Lstat fails, or it is a broken symlink whose removal
fails. -/
def entryAborts (e : DestEntry) : Bool :=
  match e.lstat with
  | Except.error _ => true
  | Except.ok isLink => isLink && !e.resolves && (e.removeErr).isSome

/-- The messages the event-router loop of `main` (lines 115-131) can
receive: a global quit (`chanQuit`), a file notification (`chanUpdate`),
a per-session exit acknowledgment (`chanExit`). -/
inductive RouterMsg where
  | quit : RouterMsg
  | update (ev : FileEvent) : RouterMsg
  | exitAck : RouterMsg
deriving DecidableEq

/-- The state of the router goroutine: the `exitCnt` counter (a Go
`int`), how many values it has sent on the shared `WatcherQuit` channel,
the notifications it has dispatched to `UpdateDirs`, and whether its
`for` loop has returned. -/
structure RouterState where
  exitCnt : Int
  quitsSent : Nat
  dispatched : List FileEvent
  terminated : Bool
deriving DecidableEq

/-- Initial state: `exitCnt := len(manageDirs)` (line 113) and the loop not yet run. -/
def routerInit (numDirs : Nat) : RouterState :=
  ⟨(numDirs : Int), 0, [], false⟩

/-- One iteration of the router loop on one received message: a quit
sends one `WatcherQuit` per managed directory, an update dispatches the
notification asynchronously, an exit acknowledgment decrements
`exitCnt`; after the `select`, the loop returns iff `exitCnt == 0`. A
terminated loop consumes nothing more. -/
def routerSelect (numDirs : Nat) (st : RouterState) :
    RouterMsg → RouterState
  | RouterMsg.quit => { st with quitsSent := st.quitsSent + numDirs }
  | RouterMsg.update ev => { st with dispatched := st.dispatched ++ [ev] }
  | RouterMsg.exitAck => { st with exitCnt := st.exitCnt - 1 }

def routerStep (numDirs : Nat) (st : RouterState) (msg : RouterMsg) :
    RouterState :=
  if st.terminated then st
  else
    let st' := routerSelect numDirs st msg
    if st'.exitCnt = 0 then { st' with terminated := true } else st'

/-- The router loop run over a sequence of received messages. -/
def routerRun (numDirs : Nat) (msgs : List RouterMsg) : RouterState :=
  msgs.foldl (routerStep numDirs) (routerInit numDirs)

/-- The OS signals the daemon registers handlers for (lines 63-64). -/
inductive GoSignal where
  | sigterm : GoSignal
  | sighup : GoSignal
deriving DecidableEq

/-- What the signal handler makes the process do. -/
inductive HandlerEffect where
  | exitProcess (code : Nat) : HandlerEffect
  | ignored : HandlerEffect
deriving DecidableEq

/-- The `handler` closure of `main` lines 38-45: on SIGTERM it calls
`os.Exit(0)` (the `return daemon.ErrStop` after it is unreachable); on
any other signal it returns nil and the process keeps running. -/
def handler (sig : GoSignal) : HandlerEffect :=
  match sig with
  | GoSignal.sigterm => HandlerEffect.exitProcess 0
  | GoSignal.sighup => HandlerEffect.ignored

lemma lookupName_eq_none_iff_countName (d : Dir) (n : String) :
    lookupName d n = none ↔ countName d n = 0 := by
  induction d with
  | nil => simp [lookupName, countName]
  | cons p rest ih =>
    obtain ⟨m, e⟩ := p
    by_cases h : m = n
    · subst h
      simp [lookupName, countName, List.filter]
    · simp [lookupName, countName, List.filter, h] at ih ⊢
      simpa [countName] using ih

lemma countName_cons_self (d : Dir) (n : String) (e : FSEntry) :
    countName ((n, e) :: d) n = countName d n + 1 := by
  simp [countName, List.filter]

lemma lookupName_cons_ne (d : Dir) (n m : String) (e : FSEntry) (h : m ≠ n) :
    lookupName ((m, e) :: d) n = lookupName d n := by
  simp [lookupName, h]

lemma lookupName_removeName_self (d : Dir) (n : String) :
    lookupName (removeName d n) n = none := by
  induction d with
  | nil => simp [removeName, lookupName]
  | cons p rest ih =>
    obtain ⟨m, e⟩ := p
    by_cases h : m = n
    · subst h
      simpa [removeName, List.filter, decide_not] using ih
    · simp only [removeName, List.filter, decide_not] at ih ⊢
      simp [h, lookupName, ih]

lemma lookupName_removeName_ne (d : Dir) (n m : String) (h : m ≠ n) :
    lookupName (removeName d n) m = lookupName d m := by
  induction d with
  | nil => simp [removeName, lookupName]
  | cons p rest ih =>
    obtain ⟨k, e⟩ := p
    by_cases hk : k = n
    · subst hk
      simp only [removeName, List.filter, decide_not] at ih ⊢
      simp [lookupName, Ne.symm h, ih]
    · simp only [removeName, List.filter, decide_not] at ih ⊢
      by_cases hm : k = m
      · subst hm
        simp [lookupName, hk]
      · simp [lookupName, hk, hm, ih]

lemma updateDirs_create_ok (dist : String) (ev : FileEvent) (d : Dir)
    (hc : ev.isCreate = true) (hd : ev.isDelete = false)
    (h : lookupName d (goPathBase ev.name) = none) :
    UpdateDirs dist ev d =
      ⟨(goPathBase ev.name, FSEntry.symlink ev.name) :: d,
        ["Updated link: " ++ ev.name], none⟩ := by
  simp [UpdateDirs, osSymlink, hc, hd, h]

lemma updateDirs_create_exists (dist : String) (ev : FileEvent) (d : Dir)
    (e : FSEntry) (hc : ev.isCreate = true)
    (h : lookupName d (goPathBase ev.name) = some e) :
    UpdateDirs dist ev d = ⟨d, [errEEXIST], some errEEXIST⟩ := by
  simp [UpdateDirs, osSymlink, hc, h]

lemma updateDirs_delete_ok (dist : String) (ev : FileEvent) (d : Dir)
    (e : FSEntry) (hc : ev.isCreate = false) (hdel : ev.isDelete = true)
    (h : lookupName d (goPathBase ev.name) = some e) :
    UpdateDirs dist ev d =
      ⟨removeName d (goPathBase ev.name),
        ["Delete link: " ++ dist ++ "/" ++ goPathBase ev.name], none⟩ := by
  simp [UpdateDirs, osRemove, hc, hdel, h]

lemma updateDirs_delete_missing (dist : String) (ev : FileEvent) (d : Dir)
    (hc : ev.isCreate = false) (hdel : ev.isDelete = true)
    (h : lookupName d (goPathBase ev.name) = none) :
    UpdateDirs dist ev d = ⟨d, [errENOENT], some errENOENT⟩ := by
  simp [UpdateDirs, osRemove, hc, hdel, h]

/-- C1: a creation notification for `f` creates exactly one symlink named
`basename(f)` with target `f`, leaving every other name alone; if the name
already exists the call fails with the EEXIST conflict error, logs it, and
leaves the destination unchanged; hence the same creation event twice
yields one link after the first and a logged no-op failure on the
second. -/
theorem create_event_spec (dist : String) (ev : FileEvent) (d : Dir)
    (hc : ev.isCreate = true) (hd : ev.isDelete = false) :
    (lookupName d (goPathBase ev.name) = none →
      (UpdateDirs dist ev d).err = none ∧
      countName (UpdateDirs dist ev d).dir (goPathBase ev.name) = 1 ∧
      lookupName (UpdateDirs dist ev d).dir (goPathBase ev.name) =
        some (FSEntry.symlink ev.name) ∧
      (∀ n, n ≠ goPathBase ev.name →
        lookupName (UpdateDirs dist ev d).dir n = lookupName d n)) ∧
    (∀ e, lookupName d (goPathBase ev.name) = some e →
      (UpdateDirs dist ev d).err = some errEEXIST ∧
      (UpdateDirs dist ev d).dir = d ∧
      errEEXIST ∈ (UpdateDirs dist ev d).log) ∧
    (lookupName d (goPathBase ev.name) = none →
      (UpdateDirs dist ev (UpdateDirs dist ev d).dir).dir =
        (UpdateDirs dist ev d).dir ∧
      (UpdateDirs dist ev (UpdateDirs dist ev d).dir).err = some errEEXIST ∧
      countName (UpdateDirs dist ev (UpdateDirs dist ev d).dir).dir
        (goPathBase ev.name) = 1) := by
  refine ⟨?_, ?_, ?_⟩
  · intro h
    have h0 : countName d (goPathBase ev.name) = 0 :=
      (lookupName_eq_none_iff_countName d _).mp h
    rw [updateDirs_create_ok dist ev d hc hd h]
    refine ⟨rfl, ?_, ?_, ?_⟩
    · rw [countName_cons_self, h0]
    · simp [lookupName]
    · intro n hn
      exact lookupName_cons_ne d n _ _ (Ne.symm hn)
  · intro e h
    rw [updateDirs_create_exists dist ev d e hc h]
    exact ⟨rfl, rfl, by simp⟩
  · intro h
    have h0 : countName d (goPathBase ev.name) = 0 :=
      (lookupName_eq_none_iff_countName d _).mp h
    rw [updateDirs_create_ok dist ev d hc hd h]
    have hsome :
        lookupName ((goPathBase ev.name, FSEntry.symlink ev.name) :: d)
          (goPathBase ev.name) = some (FSEntry.symlink ev.name) := by
      simp [lookupName]
    rw [updateDirs_create_exists dist ev _ _ hc hsome]
    refine ⟨rfl, rfl, ?_⟩
    rw [countName_cons_self, h0]

/-- C1 witness at a concrete event and directory. -/
theorem create_event_spec_witness :
    lookupName (UpdateDirs ("/dst") ⟨"/srcA/x.txt", true, false⟩
        [("o", FSEntry.file)]).dir ("x.txt") =
      some (FSEntry.symlink ("/srcA/x.txt")) ∧
    (UpdateDirs ("/dst") ⟨"/srcA/x.txt", true, false⟩
        (UpdateDirs ("/dst") ⟨"/srcA/x.txt", true, false⟩
          [("o", FSEntry.file)]).dir).err = some errEEXIST := by
  have h := create_event_spec ("/dst") ⟨"/srcA/x.txt", true, false⟩
    [("o", FSEntry.file)] rfl rfl
  exact ⟨(h.1 (by decide)).2.2.1, (h.2.2 (by decide)).2.1⟩

/-- C2: a deletion notification for `f` removes the destination entry
named `basename(f)`, which is absent afterward, every other name being
untouched; if no such entry exists the call fails with the ENOENT
not-found error, logs it, and leaves the destination unchanged. -/
theorem delete_event_spec (dist : String) (ev : FileEvent) (d : Dir)
    (hc : ev.isCreate = false) (hdel : ev.isDelete = true) :
    (∀ e, lookupName d (goPathBase ev.name) = some e →
      (UpdateDirs dist ev d).err = none ∧
      lookupName (UpdateDirs dist ev d).dir (goPathBase ev.name) = none ∧
      (∀ n, n ≠ goPathBase ev.name →
        lookupName (UpdateDirs dist ev d).dir n = lookupName d n)) ∧
    (lookupName d (goPathBase ev.name) = none →
      (UpdateDirs dist ev d).err = some errENOENT ∧
      (UpdateDirs dist ev d).dir = d ∧
      errENOENT ∈ (UpdateDirs dist ev d).log) := by
  constructor
  · intro e h
    rw [updateDirs_delete_ok dist ev d e hc hdel h]
    refine ⟨rfl, lookupName_removeName_self d _, ?_⟩
    intro n hn
    exact lookupName_removeName_ne d _ n hn
  · intro h
    rw [updateDirs_delete_missing dist ev d hc hdel h]
    exact ⟨rfl, rfl, by simp⟩

/-- C2 witness at a concrete event and directory. -/
theorem delete_event_spec_witness :
    (UpdateDirs ("/dst") ⟨"/srcA/x.txt", false, true⟩
        [("x.txt", FSEntry.symlink ("/srcA/x.txt"))]).err = none ∧
    lookupName (UpdateDirs ("/dst") ⟨"/srcA/x.txt", false, true⟩
        [("x.txt", FSEntry.symlink ("/srcA/x.txt"))]).dir ("x.txt") = none ∧
    (UpdateDirs ("/dst") ⟨"/srcA/x.txt", false, true⟩ []).err =
      some errENOENT := by
  have h := delete_event_spec ("/dst") ⟨"/srcA/x.txt", false, true⟩
    [("x.txt", FSEntry.symlink ("/srcA/x.txt"))] rfl rfl
  have h2 := delete_event_spec ("/dst") ⟨"/srcA/x.txt", false, true⟩ [] rfl rfl
  refine ⟨(h.1 (FSEntry.symlink ("/srcA/x.txt")) (by decide)).1,
    (h.1 (FSEntry.symlink ("/srcA/x.txt")) (by decide)).2.1,
    (h2.2 (by decide)).1⟩

/-- C7: a notification that is neither a creation nor a deletion makes
`UpdateDirs` perform no action at all: the destination is unchanged,
nothing is logged, and nil is returned. -/
theorem other_event_noop (dist : String) (ev : FileEvent) (d : Dir)
    (hc : ev.isCreate = false) (hd : ev.isDelete = false) :
    UpdateDirs dist ev d = ⟨d, [], none⟩ := by
  simp [UpdateDirs, hc, hd]

/-- C7 witness at a concrete rename-style event. -/
theorem other_event_noop_witness :
    UpdateDirs ("/dst") ⟨"/srcA/x.txt", false, false⟩
        [("x.txt", FSEntry.symlink ("/srcA/x.txt"))] =
      ⟨[("x.txt", FSEntry.symlink ("/srcA/x.txt"))], [], none⟩ :=
  other_event_noop ("/dst") ⟨"/srcA/x.txt", false, false⟩
    [("x.txt", FSEntry.symlink ("/srcA/x.txt"))] rfl rfl

/-- C10: a deletion notification removes the entry named `basename(f)`
purely by name — whatever the entry is: a regular (non-symlink) entry, or
a symlink whose target is any path, related to `f` or not, is removed all
the same. -/
theorem delete_ignores_entry_kind (dist : String) (ev : FileEvent) (d : Dir)
    (hc : ev.isCreate = false) (hdel : ev.isDelete = true) :
    ∀ e : FSEntry, lookupName d (goPathBase ev.name) = some e →
      (UpdateDirs dist ev d).err = none ∧
      lookupName (UpdateDirs dist ev d).dir (goPathBase ev.name) = none := by
  intro e h
  rw [updateDirs_delete_ok dist ev d e hc hdel h]
  exact ⟨rfl, lookupName_removeName_self d _⟩

/-- C10 witness: a regular file named like `f`, owned by nobody, is
removed by a deletion event for `f`. -/
theorem delete_ignores_entry_kind_witness :
    (UpdateDirs ("/dst") ⟨"/srcA/x.txt", false, true⟩
        [("x.txt", FSEntry.file)]).err = none ∧
    lookupName (UpdateDirs ("/dst") ⟨"/srcA/x.txt", false, true⟩
        [("x.txt", FSEntry.file)]).dir ("x.txt") = none :=
  delete_ignores_entry_kind ("/dst") ⟨"/srcA/x.txt", false, true⟩
    [("x.txt", FSEntry.file)] rfl rfl FSEntry.file (by decide)

/-- C5 counterexample: two creation events for `A/dup.txt` then
`B/dup.txt` processed in that order leave the entry targeting
`A/dup.txt` — the FIRST event, not the most recent one — and the second
event fails with the conflict error, so last-writer-wins is false. -/
theorem same_name_create_counterexample :
    lookupName (UpdateDirs ("/dst") ⟨"B/dup.txt", true, false⟩
        (UpdateDirs ("/dst") ⟨"A/dup.txt", true, false⟩ []).dir).dir ("dup.txt") =
      some (FSEntry.symlink ("A/dup.txt")) ∧
    some (FSEntry.symlink ("A/dup.txt")) ≠
      some (FSEntry.symlink ("B/dup.txt")) ∧
    (UpdateDirs ("/dst") ⟨"B/dup.txt", true, false⟩
        (UpdateDirs ("/dst") ⟨"A/dup.txt", true, false⟩ []).dir).err =
      some errEEXIST := by
  decide

/-- C5 amended: when two creation events whose paths share a base name
are processed in sequence on a destination not yet holding that name, the
destination ends up with exactly one entry for the name, it reflects the
FIRST event (its target is the first event's path), and the second event
fails with the EEXIST conflict error (first-writer-wins). -/
theorem same_name_create_first_wins (dist : String) (ev1 ev2 : FileEvent)
    (d : Dir) (h1c : ev1.isCreate = true) (h1d : ev1.isDelete = false)
    (h2c : ev2.isCreate = true)
    (hb : goPathBase ev2.name = goPathBase ev1.name)
    (h : lookupName d (goPathBase ev1.name) = none) :
    countName (UpdateDirs dist ev2 (UpdateDirs dist ev1 d).dir).dir
      (goPathBase ev1.name) = 1 ∧
    lookupName (UpdateDirs dist ev2 (UpdateDirs dist ev1 d).dir).dir
      (goPathBase ev1.name) = some (FSEntry.symlink ev1.name) ∧
    (UpdateDirs dist ev2 (UpdateDirs dist ev1 d).dir).err =
      some errEEXIST := by
  have h0 : countName d (goPathBase ev1.name) = 0 :=
    (lookupName_eq_none_iff_countName d _).mp h
  rw [updateDirs_create_ok dist ev1 d h1c h1d h]
  have hsome :
      lookupName ((goPathBase ev1.name, FSEntry.symlink ev1.name) :: d)
        (goPathBase ev2.name) = some (FSEntry.symlink ev1.name) := by
    rw [hb]; simp [lookupName]
  rw [updateDirs_create_exists dist ev2 _ _ h2c hsome]
  refine ⟨?_, ?_, rfl⟩
  · rw [countName_cons_self, h0]
  · simp [lookupName]

/-- C5 amended witness at the scenario of the spec. -/
theorem same_name_create_first_wins_witness :
    countName (UpdateDirs ("/dst") ⟨"B/dup.txt", true, false⟩
        (UpdateDirs ("/dst") ⟨"A/dup.txt", true, false⟩ []).dir).dir
      ("dup.txt") = 1 ∧
    lookupName (UpdateDirs ("/dst") ⟨"B/dup.txt", true, false⟩
        (UpdateDirs ("/dst") ⟨"A/dup.txt", true, false⟩ []).dir).dir
      ("dup.txt") = some (FSEntry.symlink ("A/dup.txt")) ∧
    (UpdateDirs ("/dst") ⟨"B/dup.txt", true, false⟩
        (UpdateDirs ("/dst") ⟨"A/dup.txt", true, false⟩ []).dir).err =
      some errEEXIST := by
  have h := same_name_create_first_wins ("/dst") ⟨"A/dup.txt", true, false⟩
    ⟨"B/dup.txt", true, false⟩ [] rfl rfl rfl (by decide) (by decide)
  simpa [goPathBase] using h

/-- Whether a `ReadDir` outcome is a success. -/
def listingOk (x : Except String (List String)) : Bool :=
  match x with
  | Except.ok _ => true
  | Except.error _ => false

/-- Whether every source-directory listing of the reconciliation pass
succeeded. -/
def allListingsOk (ss : List SourceDir) : Bool :=
  ss.all (fun s => listingOk s.listing)

/-- The failure condition of `cleanDirs`: some source listing fails, or
the destination listing fails, or some destination entry aborts the
pruning loop (its Lstat fails, or it is a broken symlink whose removal
fails). -/
def cleanFails (ss : List SourceDir)
    (dest : Except String (List DestEntry)) : Bool :=
  !allListingsOk ss ||
    (match dest with
     | Except.error _ => true
     | Except.ok entries => entries.any entryAborts)

lemma buildFilenames_ok_of_all (ss : List SourceDir) :
    ∀ acc, allListingsOk ss = true →
      ∃ m, buildFilenames ss acc = Except.ok m := by
  induction ss with
  | nil => exact fun acc _ => ⟨acc, rfl⟩
  | cons s rest ih =>
    intro acc h
    simp only [allListingsOk, List.all_cons, Bool.and_eq_true] at h
    obtain ⟨names, hn⟩ : ∃ ns, s.listing = Except.ok ns := by
      cases hl : s.listing with
      | ok ns => exact ⟨ns, rfl⟩
      | error e =>
        have h1 := h.1
        rw [hl] at h1
        simp [listingOk] at h1
    obtain ⟨m, hm⟩ := ih (names.foldl (fun m n => mapAssign m n s.path) acc)
      (by simpa [allListingsOk] using h.2)
    exact ⟨m, by simp [buildFilenames, hn, hm]⟩

lemma buildFilenames_error_of_not_all (ss : List SourceDir) :
    ∀ acc, allListingsOk ss = false →
      ∃ e, buildFilenames ss acc = Except.error e := by
  induction ss with
  | nil => intro acc h; simp [allListingsOk] at h
  | cons s rest ih =>
    intro acc h
    cases hl : s.listing with
    | error e => exact ⟨e, by simp [buildFilenames, hl]⟩
    | ok names =>
      have hr : allListingsOk rest = false := by
        simp only [allListingsOk, List.all_cons] at h
        rw [hl] at h
        simp only [listingOk, Bool.true_and] at h
        simpa [allListingsOk] using h
      obtain ⟨e, he⟩ := ih (names.foldl (fun m n => mapAssign m n s.path) acc) hr
      exact ⟨e, by simp [buildFilenames, hl, he]⟩

lemma cleanLoop_err_any (entries : List DestEntry) :
    (cleanLoop entries).2.isSome = entries.any entryAborts := by
  induction entries with
  | nil => simp [cleanLoop]
  | cons e rest ih =>
    cases hl : e.lstat with
    | error msg => simp [cleanLoop, entryAborts, hl]
    | ok isLink =>
      by_cases hlink : isLink = true
      · subst hlink
        by_cases hres : e.resolves = true
        · simp [cleanLoop, entryAborts, hl, hres, ih]
        · cases hre : e.removeErr with
          | some msg =>
            simp [cleanLoop, entryAborts, hl, hres, hre,
              Bool.eq_false_iff.mpr hres]
          | none =>
            simp [cleanLoop, entryAborts, hl, hres, hre, ih]
      · have hlink' : isLink = false := by
          cases isLink
          · rfl
          · exact absurd rfl hlink
        subst hlink'
        simp [cleanLoop, entryAborts, hl, ih]

lemma cleanLoop_no_abort (entries : List DestEntry)
    (he : entries.all (fun e => !entryAborts e) = true) :
    cleanLoop entries =
      ((entries.filter isBrokenLink).map DestEntry.name, none) := by
  induction entries with
  | nil => simp [cleanLoop]
  | cons e rest ih =>
    simp only [List.all_cons, Bool.and_eq_true] at he
    have hrest := ih he.2
    cases hl : e.lstat with
    | error msg => rw [entryAborts, hl] at he; simp at he
    | ok isLink =>
      by_cases hlink : isLink = true
      · subst hlink
        by_cases hres : e.resolves = true
        · simp [cleanLoop, hl, hres, hrest, isBrokenLink]
        · have hre : e.removeErr = none := by
            rw [entryAborts, hl] at he
            cases hx : e.removeErr with
            | none => rfl
            | some m =>
              rw [hx] at he
              simp [Bool.eq_false_iff.mpr hres] at he
          simp [cleanLoop, hl, hres, hre, hrest, isBrokenLink,
            Bool.eq_false_iff.mpr hres]
      · have hlink' : isLink = false := by
          cases isLink
          · rfl
          · exact absurd rfl hlink
        subst hlink'
        simp [cleanLoop, hl, hrest, isBrokenLink]

/-- C3 counterexample: source and destination listings both succeed, the
lone destination entry is a broken symlink, yet `cleanDirs` removes
nothing because the removal itself fails (e.g. a read-only destination):
success of the directory listings alone does not make the pass prune
every broken link. -/
theorem clean_removes_broken_counterexample :
    allListingsOk [⟨"/srcA", Except.ok ["x.txt"]⟩] = true ∧
    isBrokenLink ⟨"stale", Except.ok true, false, some ("permission denied")⟩
      = true ∧
    (cleanDirs [⟨"/srcA", Except.ok ["x.txt"]⟩]
      (Except.ok [⟨"stale", Except.ok true, false, some ("permission denied")⟩])).1
      = [] ∧
    (cleanDirs [⟨"/srcA", Except.ok ["x.txt"]⟩]
      (Except.ok [⟨"stale", Except.ok true, false, some ("permission denied")⟩])).2
      = some ("permission denied") := by
  refine ⟨rfl, rfl, ?_, ?_⟩ <;> rfl

/-- C3 amended: when every directory listing succeeds AND every Lstat and
every attempted removal on destination entries succeeds, the
reconciliation pass returns success and removes exactly the destination
entries that are symlinks whose targets do not resolve — every other
entry is untouched, and nothing is ever created (the pass only produces
removals of listed entries). -/
theorem clean_removes_exactly_broken (ss : List SourceDir)
    (entries : List DestEntry)
    (hs : allListingsOk ss = true)
    (he : entries.all (fun e => !entryAborts e) = true) :
    (cleanDirs ss (Except.ok entries)).2 = none ∧
    (cleanDirs ss (Except.ok entries)).1 =
      (entries.filter isBrokenLink).map DestEntry.name := by
  obtain ⟨m, hm⟩ := buildFilenames_ok_of_all ss [] hs
  have hloop := cleanLoop_no_abort entries he
  constructor
  · simp [cleanDirs, hm, hloop]
  · simp [cleanDirs, hm, hloop]

/-- C3 amended witness: one broken link among healthy entries. -/
theorem clean_removes_exactly_broken_witness :
    (cleanDirs [⟨"/srcA", Except.ok ["x.txt"]⟩]
      (Except.ok [⟨"stale", Except.ok true, false, none⟩,
        ⟨"x.txt", Except.ok true, true, none⟩,
        ⟨"notes", Except.ok false, false, none⟩])).2 = none ∧
    (cleanDirs [⟨"/srcA", Except.ok ["x.txt"]⟩]
      (Except.ok [⟨"stale", Except.ok true, false, none⟩,
        ⟨"x.txt", Except.ok true, true, none⟩,
        ⟨"notes", Except.ok false, false, none⟩])).1 = ["stale"] := by
  have h := clean_removes_exactly_broken [⟨"/srcA", Except.ok ["x.txt"]⟩]
    [⟨"stale", Except.ok true, false, none⟩,
      ⟨"x.txt", Except.ok true, true, none⟩,
      ⟨"notes", Except.ok false, false, none⟩] rfl rfl
  exact ⟨h.1, by rw [h.2]; decide⟩

/-- C6: `cleanDirs` returns an error exactly when some source listing
fails, or the destination listing fails, or some destination entry makes
the pruning loop abort (Lstat failure, or failed removal of a broken
link); and `main` enters live event processing exactly when `cleanDirs`
returned no error, otherwise `log.Fatalln` terminates the process
first. -/
theorem clean_error_iff_failure (ss : List SourceDir)
    (dest : Except String (List DestEntry)) :
    ((cleanDirs ss dest).2.isSome = cleanFails ss dest) ∧
    (startupAfterClean (cleanDirs ss dest) = StartupOutcome.enterEventLoop ↔
      (cleanDirs ss dest).2.isSome = false) := by
  constructor
  · by_cases hall : allListingsOk ss = true
    · obtain ⟨m, hm⟩ := buildFilenames_ok_of_all ss [] hall
      cases dest with
      | error e => simp [cleanDirs, hm, cleanFails, hall]
      | ok entries =>
        simp [cleanDirs, hm, cleanFails, hall, cleanLoop_err_any]
    · have hall' : allListingsOk ss = false := by
        cases h : allListingsOk ss
        · rfl
        · exact absurd h hall
      obtain ⟨e, he⟩ := buildFilenames_error_of_not_all ss [] hall'
      simp [cleanDirs, he, cleanFails, hall']
  · cases h : (cleanDirs ss dest).2 with
    | none => simp [startupAfterClean, h]
    | some e => simp [startupAfterClean, h]

/-- C9: the removal decisions of the reconciliation pass do not depend on
what the source directories contain — for any two source sets whose
listings all succeed, `cleanDirs` produces the same removals and the same
result on the same destination, because the name→source-path map it
builds is never consulted. -/
theorem clean_independent_of_sources (s1 s2 : List SourceDir)
    (dest : Except String (List DestEntry))
    (h1 : allListingsOk s1 = true) (h2 : allListingsOk s2 = true) :
    cleanDirs s1 dest = cleanDirs s2 dest := by
  obtain ⟨m1, hm1⟩ := buildFilenames_ok_of_all s1 [] h1
  obtain ⟨m2, hm2⟩ := buildFilenames_ok_of_all s2 [] h2
  cases dest with
  | error e => simp [cleanDirs, hm1, hm2]
  | ok entries => simp [cleanDirs, hm1, hm2]

/-- C9 witness: two entirely different source sets, same destination,
same outcome. -/
theorem clean_independent_of_sources_witness :
    cleanDirs [⟨"/srcA", Except.ok ["x.txt"]⟩]
      (Except.ok [⟨"stale", Except.ok true, false, none⟩]) =
    cleanDirs [⟨"/srcB", Except.ok ["y.txt", "z.txt"]⟩,
        ⟨"/srcC", Except.ok []⟩]
      (Except.ok [⟨"stale", Except.ok true, false, none⟩]) :=
  clean_independent_of_sources [⟨"/srcA", Except.ok ["x.txt"]⟩]
    [⟨"/srcB", Except.ok ["y.txt", "z.txt"]⟩, ⟨"/srcC", Except.ok []⟩]
    (Except.ok [⟨"stale", Except.ok true, false, none⟩]) rfl rfl

/-- The router-loop invariant: a terminated loop has `exitCnt = 0`, a
running loop has `exitCnt ≥ 1`. -/
def routerInv (st : RouterState) : Prop :=
  (st.terminated = true ∧ st.exitCnt = 0) ∨
    (st.terminated = false ∧ 1 ≤ st.exitCnt)

lemma routerStep_inv (numDirs : Nat) (st : RouterState) (msg : RouterMsg)
    (h : routerInv st) : routerInv (routerStep numDirs st msg) := by
  rcases h with ⟨ht, hc⟩ | ⟨ht, hc⟩
  · simp only [routerStep, ht, if_true]
    exact Or.inl ⟨ht, hc⟩
  · simp only [routerStep, ht, Bool.false_eq_true, if_false]
    by_cases hz : (routerSelect numDirs st msg).exitCnt = 0
    · rw [if_pos hz]
      exact Or.inl ⟨rfl, hz⟩
    · rw [if_neg hz]
      refine Or.inr ⟨?_, ?_⟩
      · cases msg <;> exact ht
      · cases msg with
        | quit => exact hc
        | update ev => exact hc
        | exitAck =>
          have hz' : ¬st.exitCnt - 1 = 0 := hz
          show 1 ≤ st.exitCnt - 1
          omega

lemma routerRun_inv_aux (numDirs : Nat) (msgs : List RouterMsg) :
    ∀ st : RouterState, routerInv st →
      routerInv (msgs.foldl (routerStep numDirs) st) := by
  induction msgs with
  | nil => exact fun st h => h
  | cons m rest ih =>
    intro st h
    exact ih (routerStep numDirs st m) (routerStep_inv numDirs st m h)

/-- C8: the router loop starts with `exitCnt` equal to the number of
managed source directories; on a quit it sends one `WatcherQuit` per
directory, on an exit acknowledgment it decrements `exitCnt` by exactly
one, and after any sequence of received messages the loop has returned
iff `exitCnt` has reached zero — never before. -/
theorem router_loop_spec (numDirs : Nat) (msgs : List RouterMsg)
    (h : 1 ≤ numDirs) :
    (routerInit numDirs).exitCnt = (numDirs : Int) ∧
    ((routerRun numDirs msgs).terminated = true ↔
      (routerRun numDirs msgs).exitCnt = 0) ∧
    (∀ st : RouterState, st.terminated = false →
      (routerStep numDirs st RouterMsg.exitAck).exitCnt = st.exitCnt - 1 ∧
      (routerStep numDirs st RouterMsg.quit).quitsSent =
        st.quitsSent + numDirs) := by
  refine ⟨rfl, ?_, ?_⟩
  · have hinv : routerInv (routerRun numDirs msgs) := by
      refine routerRun_inv_aux numDirs msgs (routerInit numDirs) ?_
      exact Or.inr ⟨rfl, by simp [routerInit]; omega⟩
    rcases hinv with ⟨ht, hc⟩ | ⟨ht, hc⟩
    · simp [ht, hc]
    · constructor
      · intro hx; rw [ht] at hx; exact absurd hx (by simp)
      · intro hx; omega
  · intro st hst
    constructor
    · simp only [routerStep, hst, Bool.false_eq_true, if_false]
      by_cases hz : (routerSelect numDirs st RouterMsg.exitAck).exitCnt = 0
      · rw [if_pos hz]; rfl
      · rw [if_neg hz]; rfl
    · simp only [routerStep, hst, Bool.false_eq_true, if_false]
      by_cases hz : (routerSelect numDirs st RouterMsg.quit).exitCnt = 0
      · rw [if_pos hz]; rfl
      · rw [if_neg hz]; rfl

/-- C8 witness: two directories, a quit then two acknowledgments. -/
theorem router_loop_spec_witness :
    ((routerRun 2 [RouterMsg.quit, RouterMsg.exitAck,
        RouterMsg.exitAck]).terminated = true ↔
      (routerRun 2 [RouterMsg.quit, RouterMsg.exitAck,
        RouterMsg.exitAck]).exitCnt = 0) ∧
    (routerStep 2 (routerInit 2) RouterMsg.exitAck).exitCnt =
      (routerInit 2).exitCnt - 1 := by
  have h := router_loop_spec 2
    [RouterMsg.quit, RouterMsg.exitAck, RouterMsg.exitAck] (by decide)
  exact ⟨h.2.1, (h.2.2 (routerInit 2) rfl).1⟩

/-- C4: the SIGTERM handler terminates the process at once via
`os.Exit(0)` (the `return daemon.ErrStop` after it is unreachable, and
nothing in the program ever sends on `chanQuit`), so the process exits
while the router still counts every Watch Session as outstanding — here
two sessions with no control message processed. -/
theorem sigterm_exits_before_sessions_stop :
    handler GoSignal.sigterm = HandlerEffect.exitProcess 0 ∧
    (routerRun 2 []).terminated = false ∧
    (routerRun 2 []).exitCnt = 2 ∧
    (routerRun 2 []).quitsSent = 0 := by
  refine ⟨rfl, rfl, rfl, rfl⟩

end LnSync
